import Mathlib

/- Verification of the match ingestion and dynamic streak scoring engine of a
   game tracking service (src/api.py).  The definitions below are a shallow
   embedding of the source: SQLite tables become lists of row structures,
   formatted timestamp strings become the millisecond instants they denote
   (the string comparisons the source performs on its fixed formats are
   monotone in the instant, and date strings are modelled by day indices),
   and the endpoint body becomes an explicit state passing function.  An
   INSERT that violates a PRIMARY KEY raises in the source; here insertion
   into the matches table returns Except. -/

/-- Outcome event stored in the match_events table; the source writes the
strings "victoria" and "derrota". -/
inductive Evento
  | victoria
  | derrota
deriving DecidableEq

/-- Daily defeat limit from the source configuration. -/
def DAILY_DEF_LIMIT : Nat := 5

/-- Base points per victory from the source configuration. -/
def POINTS_PER_VICTORY_BASE : Nat := 5

/-- Allowed queue identifiers from the source configuration. -/
def ALLOWED_QUEUES : List Nat := [400, 420, 440]

/-- The fixed exercise template FULL_WORKOUT from the source. -/
def FULL_WORKOUT : List (String × Nat) :=
  [("Sentadillas", 40),
   ("Zancadas (lunges)", 20),
   ("Flexiones convencionales", 20),
   ("Flexiones palmas juntas", 10),
   ("Curl isométrico con toalla", 15),
   ("Superman lumbares", 15),
   ("Plancha frontal (segundos)", 60),
   ("Crunches", 30),
   ("Jumping Jacks", 30),
   ("Saltos de sentadilla", 20)]

/-- One entry of the returned exercise plan: the source builds dictionaries
with keys nombre and reps. -/
structure PlanItem where
  nombre : String
  reps : Nat
deriving DecidableEq

/-- The comprehension inside generate_base_plan, generalized over the
template list it walks (the source fixes the template to FULL_WORKOUT). -/
def generate_base_plan_of (workout : List (String × Nat)) (defeats : Nat) : List PlanItem :=
  workout.map (fun p => { nombre := p.1, reps := p.2 * defeats })

/-- generate_base_plan from the source: every template item scaled by the
defeat count.  The point total is not a parameter of this function. -/
def generate_base_plan (defeats : Nat) : List PlanItem :=
  generate_base_plan_of FULL_WORKOUT defeats

/-- Result shape of the plan derivation described by the specification. -/
structure DerivedPlan where
  remainingPoints : Nat
  items : List PlanItem
deriving DecidableEq

/-- Modelled from the spec: the greedy point discounting walk of section 4.6
of the specification (drop an item when points cover its reps, partially
reduce it when points are positive but insufficient, keep it otherwise).
No such discounting exists anywhere in the source; this definition follows
the spec words only, for comparison with generate_base_plan. -/
def derive_discount : List PlanItem → Nat → DerivedPlan
  | [], pts => { remainingPoints := pts, items := [] }
  | item :: rest, pts =>
    if item.reps ≤ pts then derive_discount rest (pts - item.reps)
    else if 0 < pts then
      let d := derive_discount rest 0
      { remainingPoints := d.remainingPoints,
        items := { nombre := item.nombre, reps := item.reps - pts } :: d.items }
    else
      let d := derive_discount rest pts
      { remainingPoints := d.remainingPoints, items := item :: d.items }

/-- Modelled from the spec: derive of section 4.6, scaling the template by
the loss count and then greedily discounting with the available points. -/
def derive_spec (template : List (String × Nat)) (losses points : Nat) : DerivedPlan :=
  derive_discount (generate_base_plan_of template losses) points

/-- Accumulator of the scoring loop in calculate_dynamic_points. -/
structure ScoreState where
  points : Nat
  streak : Nat
  defeats : Nat
  p_per_victory : Nat
deriving DecidableEq

/-- The event replay loop of calculate_dynamic_points: a victory grows the
streak, a defeat converts the streak into points, escalates the per victory
value, resets the streak, and stops the replay once the defeat limit is
reached. -/
def score_step_loop : List Evento → ScoreState → ScoreState
  | [], st => st
  | Evento.victoria :: rest, st =>
    score_step_loop rest { st with streak := st.streak + 1 }
  | Evento.derrota :: rest, st =>
    let gained := st.streak * st.p_per_victory
    let st1 : ScoreState :=
      { points := st.points + gained,
        streak := 0,
        defeats := st.defeats + 1,
        p_per_victory := st.p_per_victory + gained }
    if DAILY_DEF_LIMIT ≤ st1.defeats then st1 else score_step_loop rest st1

/-- Initial accumulator of calculate_dynamic_points. -/
def initScoreState : ScoreState :=
  { points := 0, streak := 0, defeats := 0, p_per_victory := POINTS_PER_VICTORY_BASE }

/-- The scoring loop run from the initial accumulator. -/
def score_run (events : List Evento) : ScoreState :=
  score_step_loop events initScoreState

/-- The value calculate_dynamic_points returns for a given replayed event
sequence: the loop result plus the final trailing streak credit the source
adds when the loop ends with a positive streak. -/
def score_events (events : List Evento) : Nat :=
  let st := score_run events
  if 0 < st.streak then st.points + st.streak * st.p_per_victory else st.points

/-- One participant entry of a provider match payload, reduced to the two
fields the source reads: puuid and win. -/
structure Participante where
  puuid : String
  win : Bool
deriving DecidableEq

/-- A provider match payload (the info dictionary), reduced to the fields
the source reads. -/
structure MatchInfo where
  gameEndedInEarlySurrender : Bool
  gameDuration : Nat
  queueId : Nat
  participants : List Participante
  gameEndTimestamp : Nat
  gameCreation : Nat
deriving DecidableEq

/-- The record process_match returns for an accepted match; the formatted
end and creation strings of the source are carried as the instants they
denote, and the single element events list is carried as the win flag that
determines it. -/
structure MatchRec where
  match_id : String
  queue_id : Nat
  end_timestamp : Nat
  raw_creation : Nat
  win : Bool
  summoner_name : String
deriving DecidableEq

/-- process_match from the source, after the cache lookup: reject early
surrenders, games shorter than 300 seconds, disallowed queues, and payloads
in which the requested puuid does not participate; otherwise build the
record for the identified participant. -/
def process_match (info : MatchInfo) (mid : String) (puuid : String) (summoner : String) :
    Option MatchRec :=
  if info.gameEndedInEarlySurrender || info.gameDuration < 300 then none
  else if info.queueId ∉ ALLOWED_QUEUES then none
  else
    match info.participants.find? (fun p => p.puuid == puuid) with
    | none => none
    | some me =>
      some { match_id := mid, queue_id := info.queueId,
             end_timestamp := info.gameEndTimestamp,
             raw_creation := info.gameCreation,
             win := me.win, summoner_name := summoner }

/-- Fetch or cache plus process_match: the provider and the write once
match_cache table together give one fixed payload per match id, modelled by
the payloads map. -/
def procesar_match (payloads : String → MatchInfo) (puuid summoner : String) (mid : String) :
    Option MatchRec :=
  process_match (payloads mid) mid puuid summoner

/-- A row of the matches table.  The table declares match_id TEXT PRIMARY
KEY; the formatted end_timestamp and game_creation strings are carried as
instants. -/
structure MatchRow where
  match_id : String
  queue_id : Nat
  end_timestamp : Nat
  game_creation : Nat
  summoner_name : String
deriving DecidableEq

/-- A row of the match_events table, without the autoincrement id; the
declared UNIQUE(match_id, event, summoner_name) key is the whole row. -/
structure EventRow where
  match_id : String
  event : Evento
  summoner_name : String
deriving DecidableEq

/-- A row of the streak_bank table; the date TEXT PRIMARY KEY is carried as
a day index. -/
structure BankRow where
  date : Nat
  pending_streak : Nat
  has_banked : Bool
deriving DecidableEq

/-- The day index of a millisecond instant, modelling the strftime day
string the source derives from an event timestamp. -/
def dayOfMs (ts : Nat) : Nat := ts / 86400000

/-- SELECT pending_streak, has_banked FROM streak_bank WHERE date = d. -/
def bank_lookup (bank : List BankRow) (d : Nat) : Option BankRow :=
  bank.find? (fun r => r.date == d)

/-- update_streak from the source: create the day row if absent, leave a
banked day untouched, otherwise grow the pending streak on a victory and
reset it to zero on a defeat. -/
def update_streak (bank : List BankRow) (event_timestamp : Nat) (is_victory : Bool) :
    List BankRow :=
  let date := dayOfMs event_timestamp
  match bank_lookup bank date with
  | none =>
    let bank1 := bank ++ [{ date := date, pending_streak := 0, has_banked := false }]
    let pending := if is_victory then 0 + 1 else 0
    bank1.map (fun r => if r.date == date then { r with pending_streak := pending } else r)
  | some row =>
    if row.has_banked then bank
    else
      let pending := if is_victory then row.pending_streak + 1 else 0
      bank.map (fun r => if r.date == date then { r with pending_streak := pending } else r)

/-- mark_streak_banked from the source: UPDATE streak_bank SET has_banked=1
WHERE date = d. -/
def mark_streak_banked (bank : List BankRow) (date : Nat) : List BankRow :=
  bank.map (fun r => if r.date == date then { r with has_banked := true } else r)

/-- A row of the user_points table; the last_accumulated_date string
"Y-m-d H:M:S" is carried as a (day, second of day) pair, with the empty
string default carried as none. -/
structure UserPointsRow where
  summoner_name : String
  total_points : Nat
  last_accumulated_date : Option (Nat × Nat)
deriving DecidableEq

/-- SELECT total_points, last_accumulated_date FROM user_points WHERE
summoner_name = s. -/
def up_lookup (up : List UserPointsRow) (s : String) : Option UserPointsRow :=
  up.find? (fun r => r.summoner_name == s)

/-- INSERT ... ON CONFLICT(summoner_name) DO UPDATE from the source. -/
def up_upsert (up : List UserPointsRow) (row : UserPointsRow) : List UserPointsRow :=
  if up.any (fun r => r.summoner_name == row.summoner_name) then
    up.map (fun r => if r.summoner_name == row.summoner_name then row else r)
  else up ++ [row]

/-- The daily accumulation step of the endpoint (the user_points block):
read the previous total and last accumulation date, add the daily points
only when the stored date part differs from today, and upsert the row with
the real time timestamp.  Returns the new table and the new total. -/
def acumular_puntos (up : List UserPointsRow) (summoner : String) (today : Nat)
    (timestamp : Nat × Nat) (daily_points : Nat) : List UserPointsRow × Nat :=
  let prev :=
    match up_lookup up summoner with
    | some r => (r.total_points, r.last_accumulated_date)
    | none => (0, none)
  let step :=
    if prev.2.map Prod.fst ≠ some today then (prev.1 + daily_points, some timestamp)
    else (prev.1, prev.2)
  (up_upsert up { summoner_name := summoner, total_points := step.1,
                  last_accumulated_date := step.2 }, step.1)

/-- The failure a persisted INSERT can raise: the matches table (named
partidas in this file because matches is reserved in Lean) rejects a
duplicate match_id through its PRIMARY KEY. -/
inductive IngestError
  | uniqueViolation (match_id : String)
deriving DecidableEq

/-- The mutable state of the candidate processing loop of the endpoint:
the three tables it writes plus the two running counters. -/
structure LoopState where
  partidas : List MatchRow
  match_events : List EventRow
  streak_bank : List BankRow
  defeats : Nat
  victories : Nat
deriving DecidableEq

/-- The matches table row the endpoint inserts for an accepted record. -/
def row_of_rec (rec : MatchRec) : MatchRow :=
  { match_id := rec.match_id, queue_id := rec.queue_id,
    end_timestamp := rec.end_timestamp, game_creation := rec.raw_creation,
    summoner_name := rec.summoner_name }

/-- The single element of the events list of a record. -/
def evento_of_rec (rec : MatchRec) : Evento :=
  if rec.win then Evento.victoria else Evento.derrota

/-- INSERT INTO matches: raises on a duplicate match_id (PRIMARY KEY),
otherwise appends the row. -/
def insert_match (rows : List MatchRow) (row : MatchRow) :
    Except IngestError (List MatchRow) :=
  if rows.any (fun r => r.match_id == row.match_id) then
    Except.error (IngestError.uniqueViolation row.match_id)
  else Except.ok (rows ++ [row])

/-- INSERT OR IGNORE INTO match_events: appends unless the unique key
(here the whole row) is already present. -/
def insert_event (rows : List EventRow) (row : EventRow) : List EventRow :=
  if rows.any (fun r => r == row) then rows else rows ++ [row]

/-- The candidate processing loop of the endpoint, one iteration per
candidate id: skip ids already recorded for this summoner, skip records
rejected by process_match, skip records created before the day cutoff;
otherwise insert the match row and its event row, update the streak bank,
and advance the counters, breaking once the defeat count reaches the daily
limit. -/
def ingest_loop (payloads : String → MatchInfo) (puuid summoner : String) (cutoff_ms : Nat) :
    List String → LoopState → Except IngestError LoopState
  | [], st => Except.ok st
  | mid :: rest, st =>
    if st.partidas.any (fun r => r.match_id == mid && r.summoner_name == summoner) then
      ingest_loop payloads puuid summoner cutoff_ms rest st
    else
      match procesar_match payloads puuid summoner mid with
      | none => ingest_loop payloads puuid summoner cutoff_ms rest st
      | some rec =>
        if rec.raw_creation < cutoff_ms then
          ingest_loop payloads puuid summoner cutoff_ms rest st
        else
          match insert_match st.partidas (row_of_rec rec) with
          | Except.error e => Except.error e
          | Except.ok ms =>
            let evt := evento_of_rec rec
            let evs := insert_event st.match_events
              { match_id := rec.match_id, event := evt, summoner_name := rec.summoner_name }
            let bank := update_streak st.streak_bank rec.raw_creation (evt == Evento.victoria)
            let st1 : LoopState :=
              { partidas := ms, match_events := evs, streak_bank := bank,
                defeats := st.defeats, victories := st.victories }
            if evt == Evento.derrota then
              if DAILY_DEF_LIMIT ≤ st.defeats + 1 then
                Except.ok { st1 with defeats := st.defeats + 1 }
              else
                ingest_loop payloads puuid summoner cutoff_ms rest
                  { st1 with defeats := st.defeats + 1 }
            else
              ingest_loop payloads puuid summoner cutoff_ms rest
                { st1 with victories := st.victories + 1 }

/-- The JOIN condition of the counting queries of the endpoint: the event
belongs to the summoner, has the requested kind, and its parent match was
created inside the day window. -/
def event_counted (partidas : List MatchRow) (cutoff_ms : Nat) (summoner : String)
    (ev : Evento) (me : EventRow) : Bool :=
  me.event == ev && me.summoner_name == summoner &&
    partidas.any (fun m => m.match_id == me.match_id && decide (cutoff_ms ≤ m.game_creation))

/-- SELECT COUNT(*) FROM match_events JOIN matches ... of the endpoint. -/
def count_events (partidas : List MatchRow) (events : List EventRow) (cutoff_ms : Nat)
    (summoner : String) (ev : Evento) : Nat :=
  (events.filter (event_counted partidas cutoff_ms summoner ev)).length

/-- Insertion into a list kept ordered by the first component, modelling
the ORDER BY of the scoring query. -/
def insert_by_end (x : Nat × Evento) : List (Nat × Evento) → List (Nat × Evento)
  | [] => [x]
  | y :: ys => if y.1 ≤ x.1 then y :: insert_by_end x ys else x :: y :: ys

/-- Sorting by the first component, modelling ORDER BY m.end_timestamp. -/
def sort_by_end : List (Nat × Evento) → List (Nat × Evento)
  | [] => []
  | x :: xs => insert_by_end x (sort_by_end xs)

/-- The SELECT of calculate_dynamic_points: events of the summoner joined
to their match rows created inside the day window, ordered by the match
end timestamp. -/
def eventos_del_dia (partidas : List MatchRow) (events : List EventRow) (cutoff_ms : Nat)
    (summoner : String) : List Evento :=
  (sort_by_end (events.filterMap (fun me =>
    if me.summoner_name == summoner then
      (partidas.find? (fun m =>
          m.match_id == me.match_id && decide (cutoff_ms ≤ m.game_creation))).map
        (fun m => (m.end_timestamp, me.event))
    else none))).map Prod.snd

/-- calculate_dynamic_points from the source: the query above followed by
the replay fold score_events. -/
def calculate_dynamic_points (partidas : List MatchRow) (events : List EventRow)
    (cutoff_ms : Nat) (summoner : String) : Nat :=
  score_events (eventos_del_dia partidas events cutoff_ms summoner)

/-- The JSON object the endpoint returns. -/
structure Respuesta where
  derrotas : Nat
  victorias : Nat
  puntos_diarios : Nat
  puntos_totales : Nat
  plan_base : List PlanItem
deriving DecidableEq

/-- The persisted database state the endpoint reads and writes. -/
structure DBState where
  partidas : List MatchRow
  match_events : List EventRow
  streak_bank : List BankRow
  user_points : List UserPointsRow
deriving DecidableEq

/-- A freshly created database. -/
def DBState.empty : DBState :=
  { partidas := [], match_events := [], streak_bank := [], user_points := [] }

/-- The endpoint body after identity resolution: count the events of the
day, run the candidate loop, recompute the daily points, accumulate them
into user_points at most once per day, and build the response.  The cutoff
instant, its day index and the wall clock pair correspond to cutoff_dt,
today_str and timestamp_str of the source. -/
def procesar_partidas (payloads : String → MatchInfo) (recent : List String)
    (puuid summoner : String) (cutoff_ms : Nat) (today : Nat) (now : Nat × Nat)
    (db : DBState) : Except IngestError (DBState × Respuesta) :=
  let defeats0 := count_events db.partidas db.match_events cutoff_ms summoner Evento.derrota
  let victories0 := count_events db.partidas db.match_events cutoff_ms summoner Evento.victoria
  match ingest_loop payloads puuid summoner cutoff_ms recent
      { partidas := db.partidas, match_events := db.match_events,
        streak_bank := db.streak_bank, defeats := defeats0, victories := victories0 } with
  | Except.error e => Except.error e
  | Except.ok st =>
    let daily_points := calculate_dynamic_points st.partidas st.match_events cutoff_ms summoner
    let acc := acumular_puntos db.user_points summoner today now daily_points
    Except.ok
      ({ partidas := st.partidas, match_events := st.match_events,
         streak_bank := st.streak_bank, user_points := acc.1 },
       { derrotas := st.defeats, victorias := st.victories,
         puntos_diarios := daily_points, puntos_totales := acc.2,
         plan_base := generate_base_plan st.defeats })

/-- Referential integrity of a database state: every event row has a parent
row in the matches table.  Every state the endpoint can produce from a fresh
database satisfies this. -/
def events_have_match (partidas : List MatchRow) (events : List EventRow) : Prop :=
  ∀ e ∈ events, ∃ m ∈ partidas, m.match_id = e.match_id

/-- The three ways one loop iteration can skip a candidate: already
recorded for this summoner, rejected by process_match, or created before
the day cutoff. -/
def skip_reason (payloads : String → MatchInfo) (puuid summoner : String) (cutoff_ms : Nat)
    (rows : List MatchRow) (mid : String) : Prop :=
  (∃ r ∈ rows, r.match_id = mid ∧ r.summoner_name = summoner) ∨
  procesar_match payloads puuid summoner mid = none ∨
  ∃ rec, procesar_match payloads puuid summoner mid = some rec ∧ rec.raw_creation < cutoff_ms

/-- The date part of the stored last accumulation value of a summoner, the
value the endpoint compares against today. -/
def lastDateOf (up : List UserPointsRow) (s : String) : Option Nat :=
  match up_lookup up s with
  | some r => r.last_accumulated_date.map Prod.fst
  | none => none

/-- The stored running total of a summoner, zero when the row is absent. -/
def totalOf (up : List UserPointsRow) (s : String) : Nat :=
  match up_lookup up s with
  | some r => r.total_points
  | none => 0

/-- A payload that passes every filter and is a defeat for puuid p, created
and ended inside a day window starting at 1000. -/
def lossInfo : MatchInfo :=
  { gameEndedInEarlySurrender := false, gameDuration := 1800, queueId := 420,
    participants := [{ puuid := "p", win := false }],
    gameEndTimestamp := 1100, gameCreation := 1050 }

/-- A provider in which every candidate id resolves to lossInfo. -/
def cexPayloads : String → MatchInfo := fun _ => lossInfo

/-- Six distinct candidate ids, each a fresh in-window defeat under
cexPayloads. -/
def cexRecent : List String := ["m1", "m2", "m3", "m4", "m5", "m6"]

/-- First endpoint call on a fresh database with six defeat candidates. -/
def cexRun1 : Except IngestError (DBState × Respuesta) :=
  procesar_partidas cexPayloads cexRecent "p" "s" 1000 0 (0, 0) DBState.empty

/-- The database persisted by the first call. -/
def cexDb1 : DBState :=
  match cexRun1 with
  | Except.ok (db, _) => db
  | Except.error _ => DBState.empty

/-- Second endpoint call with identical candidates and payloads, on the
state the first call persisted. -/
def cexRun2 : Except IngestError (DBState × Respuesta) :=
  procesar_partidas cexPayloads cexRecent "p" "s" 1000 0 (0, 0) cexDb1

/-- The response of an endpoint result, when it succeeded. -/
def respOf : Except IngestError (DBState × Respuesta) → Option Respuesta
  | Except.ok (_, r) => some r
  | Except.error _ => none

/-- The persisted match ids of an endpoint result, when it succeeded. -/
def matchIdsOf : Except IngestError (DBState × Respuesta) → Option (List String)
  | Except.ok (db, _) => some (db.partidas.map (fun r => r.match_id))
  | Except.error _ => none

/-- A payload that passes every filter but whose match was created and
ended before a day window starting at 1000. -/
def earlyInfo : MatchInfo :=
  { gameEndedInEarlySurrender := false, gameDuration := 1800, queueId := 420,
    participants := [{ puuid := "p", win := false }],
    gameEndTimestamp := 600, gameCreation := 500 }

/-- The record process_match produces from earlyInfo for candidate m1. -/
def earlyRec : MatchRec :=
  { match_id := "m1", queue_id := 420, end_timestamp := 600, raw_creation := 500,
    win := false, summoner_name := "s" }

/-- A database in which summoner A has already recorded match m1. -/
def c10db : DBState :=
  { partidas := [{ match_id := "m1", queue_id := 420, end_timestamp := 1100,
                   game_creation := 1050, summoner_name := "A" }],
    match_events := [{ match_id := "m1", event := Evento.derrota, summoner_name := "A" }],
    streak_bank := [], user_points := [] }

/-- The single candidate run used to witness the amended second run
statement. -/
def c4wRun : Except IngestError (DBState × Respuesta) :=
  procesar_partidas cexPayloads ["m1"] "p" "s" 1000 0 (0, 0) DBState.empty

/-- The database persisted by c4wRun. -/
def c4wDb1 : DBState :=
  match c4wRun with
  | Except.ok (db, _) => db
  | Except.error _ => DBState.empty

/-- The response returned by c4wRun. -/
def c4wR1 : Respuesta :=
  match c4wRun with
  | Except.ok (_, r) => r
  | Except.error _ =>
    { derrotas := 0, victorias := 0, puntos_diarios := 0, puntos_totales := 0, plan_base := [] }

lemma score_step_loop_append (ws : List Evento) :
    ∀ (es : List Evento) (st : ScoreState),
      (score_step_loop es st).defeats < DAILY_DEF_LIMIT →
      score_step_loop (es ++ ws) st = score_step_loop ws (score_step_loop es st) := by
  intro es
  induction es with
  | nil => intro st _; rfl
  | cons e rest ih =>
    intro st h
    cases e with
    | victoria =>
      simp only [List.cons_append, score_step_loop] at h ⊢
      exact ih _ h
    | derrota =>
      simp only [List.cons_append, score_step_loop] at h ⊢
      by_cases hb : DAILY_DEF_LIMIT ≤ st.defeats + 1
      · simp only [hb, if_true] at h
        omega
      · simp only [hb, if_false] at h ⊢
        exact ih _ h

lemma score_step_loop_replicate :
    ∀ (k p s d ppv : Nat),
      score_step_loop (List.replicate k Evento.victoria) ⟨p, s, d, ppv⟩ = ⟨p, s + k, d, ppv⟩ := by
  intro k
  induction k with
  | zero => intro p s d ppv; rfl
  | succ n ih =>
    intro p s d ppv
    rw [List.replicate_succ]
    simp only [score_step_loop]
    rw [ih]
    congr 1
    omega

/-- C1 counterexample: a single win with no terminating loss makes
calculate_dynamic_points return 5, not the 0 of the empty sequence, because
the source adds a final credit for a positive trailing streak. -/
theorem C1_counterexample :
    score_events [Evento.victoria] = 5 ∧ score_events [] = 0 ∧
    score_events [Evento.victoria] ≠ score_events [] := by decide

/-- C1 amended: when the replay of an event sequence ends below the defeat
limit with no pending streak, appending a trailing win streak of k wins
makes calculate_dynamic_points return the points of the prefix plus k times
the current per victory value: the trailing streak contributes exactly that
terminal credit, not zero. -/
theorem C1_points_trailing_streak (es : List Evento) (k : Nat) (hk : 0 < k)
    (hq : (score_run es).defeats < DAILY_DEF_LIMIT)
    (hs : (score_run es).streak = 0) :
    score_events (es ++ List.replicate k Evento.victoria)
      = score_events es + k * (score_run es).p_per_victory := by
  have h1 := score_step_loop_append (List.replicate k Evento.victoria) es initScoreState hq
  cases hst : score_run es with
  | mk p s d ppv =>
    rw [hst] at hs
    simp only at hs
    subst hs
    unfold score_events score_run at *
    rw [h1, hst, score_step_loop_replicate]
    simp [hk, Nat.ne_of_gt hk]

/-- C1 witness: the amended statement at the concrete prefix win, loss with
one trailing win. -/
theorem C1_witness :
    0 < 1 ∧ (score_run [Evento.victoria, Evento.derrota]).defeats < DAILY_DEF_LIMIT ∧
    (score_run [Evento.victoria, Evento.derrota]).streak = 0 ∧
    score_events ([Evento.victoria, Evento.derrota] ++ List.replicate 1 Evento.victoria)
      = score_events [Evento.victoria, Evento.derrota]
        + 1 * (score_run [Evento.victoria, Evento.derrota]).p_per_victory :=
  ⟨by decide, by decide, by decide,
    C1_points_trailing_streak [Evento.victoria, Evento.derrota] 1
      (by decide) (by decide) (by decide)⟩

/-- C2: on a loss the replay grants gained = streak * pointsPerWin, adds it
to the points and to pointsPerWin and resets the streak (stated below the
defeat limit, where the replay continues); and the two concrete sequences
of the claim evaluate to 35 and to 10 points with pointsPerWin 15. -/
theorem C2_loss_step_and_examples :
    (∀ (p s d ppv : Nat) (rest : List Evento), d + 1 < DAILY_DEF_LIMIT →
      score_step_loop (Evento.derrota :: rest) ⟨p, s, d, ppv⟩
        = score_step_loop rest ⟨p + s * ppv, 0, d + 1, ppv + s * ppv⟩) ∧
    score_events [Evento.victoria, Evento.victoria, Evento.victoria,
      Evento.derrota, Evento.victoria, Evento.derrota] = 35 ∧
    score_events [Evento.victoria, Evento.victoria, Evento.derrota] = 10 ∧
    (score_run [Evento.victoria, Evento.victoria, Evento.derrota]).p_per_victory = 15 := by
  refine ⟨?_, by decide, by decide, by decide⟩
  intro p s d ppv rest h
  simp only [score_step_loop]
  have hb : ¬ DAILY_DEF_LIMIT ≤ d + 1 := by omega
  simp [hb]

/-- C2 witness: the loss step applied at a concrete state with streak 2 and
base value 5. -/
theorem C2_witness :
    2 + 1 < DAILY_DEF_LIMIT ∧
    score_step_loop [Evento.derrota] ⟨0, 2, 2, 5⟩
      = score_step_loop [] ⟨0 + 2 * 5, 0, 2 + 1, 5 + 2 * 5⟩ :=
  ⟨by decide, C2_loss_step_and_examples.1 0 2 2 5 [] (by decide)⟩

/-- C3 counterexample: at the claim template [(A,10),(B,5)] with losses 2
and points 25, the source plan derivation returns both items scaled and
untouched, not the single discounted item with remainingPoints 0 that the
claim describes (shown against the spec modelled discount walk). -/
theorem C3_counterexample :
    derive_spec [("A", 10), ("B", 5)] 2 25
        = { remainingPoints := 0, items := [{ nombre := "B", reps := 5 }] } ∧
    generate_base_plan_of [("A", 10), ("B", 5)] 2
        = [{ nombre := "A", reps := 20 }, { nombre := "B", reps := 10 }] ∧
    generate_base_plan_of [("A", 10), ("B", 5)] 2
        ≠ (derive_spec [("A", 10), ("B", 5)] 2 25).items := by decide

/-- C3 amended: the plan derivation walks the fixed template in order with
base reps scaled by losses and ignores the point total entirely: no item is
dropped or reduced, and the plan of any successful endpoint response is the
full scaled template, identical whatever the daily or total points are; for
template [(A,10),(B,5)] and losses 2 the result is [(A,20),(B,10)]. -/
theorem C3_plan_ignores_points :
    (∀ (payloads : String → MatchInfo) (recent : List String) (puuid summoner : String)
        (cutoff_ms today : Nat) (now : Nat × Nat) (db : DBState) (db1 : DBState)
        (r : Respuesta),
      procesar_partidas payloads recent puuid summoner cutoff_ms today now db
          = Except.ok (db1, r) →
      r.plan_base = generate_base_plan_of FULL_WORKOUT r.derrotas ∧
      r.plan_base.length = FULL_WORKOUT.length) ∧
    generate_base_plan_of [("A", 10), ("B", 5)] 2
      = [{ nombre := "A", reps := 20 }, { nombre := "B", reps := 10 }] := by
  refine ⟨?_, by decide⟩
  intro payloads recent puuid summoner cutoff_ms today now db db1 r h
  simp only [procesar_partidas] at h
  split at h
  · exact absurd h (by simp)
  · rw [Except.ok.injEq, Prod.mk.injEq] at h
    obtain ⟨-, hr⟩ := h
    subst hr
    constructor
    · rfl
    · simp [generate_base_plan, generate_base_plan_of]

/-- C3 witness: the endpoint statement applied at the concrete single
candidate run c4wRun. -/
theorem C3_witness :
    (c4wR1.plan_base = generate_base_plan_of FULL_WORKOUT c4wR1.derrotas ∧
      c4wR1.plan_base.length = FULL_WORKOUT.length) :=
  C3_plan_ignores_points.1 cexPayloads ["m1"] "p" "s" 1000 0 (0, 0) DBState.empty
    c4wDb1 c4wR1 rfl

/-- C7 counterexample: with zero losses the source plan is the whole
template at zero reps, ten items, not an empty list. -/
theorem C7_counterexample :
    (generate_base_plan 0).length = 10 ∧ generate_base_plan 0 ≠ [] := by decide

lemma filter_eventos_nil (partidas : List MatchRow) (cutoff_ms : Nat) (s : String) :
    ∀ (events : List EventRow),
      (∀ me ∈ events, ¬ (me.summoner_name = s ∧
          ∃ m ∈ partidas, m.match_id = me.match_id ∧ cutoff_ms ≤ m.game_creation)) →
      events.filterMap (fun me =>
        if me.summoner_name == s then
          (partidas.find? (fun m =>
              m.match_id == me.match_id && decide (cutoff_ms ≤ m.game_creation))).map
            (fun m => (m.end_timestamp, me.event))
        else none) = [] := by
  intro events
  induction events with
  | nil => intro _; rfl
  | cons me rest ih =>
    intro h
    have hme : (if me.summoner_name == s then
        (partidas.find? (fun m =>
            m.match_id == me.match_id && decide (cutoff_ms ≤ m.game_creation))).map
          (fun m => (m.end_timestamp, me.event))
        else none) = none := by
      by_cases hs : me.summoner_name = s
      · rw [if_pos (by simp [hs])]
        cases hf : partidas.find? (fun m =>
            m.match_id == me.match_id && decide (cutoff_ms ≤ m.game_creation)) with
        | none => rfl
        | some m =>
          exfalso
          apply h me (List.mem_cons_self _ _)
          have hmem := List.mem_of_find?_eq_some hf
          have hpred := List.find?_some hf
          simp only [Bool.and_eq_true, beq_iff_eq, decide_eq_true_eq] at hpred
          exact ⟨hs, m, hmem, hpred.1, hpred.2⟩
      · rw [if_neg (by simp [hs])]
    simp only [List.filterMap_cons, hme]
    exact ih (fun e he => h e (List.mem_cons_of_mem _ he))

/-- C7 amended: when the player has no event in the current day window
(every persisted event row either belongs to another summoner or has no
parent match created inside the window, which covers prior day events and
other players alike), the scoring function returns 0; and the plan
derivation at zero losses returns every template item with zero reps
(independent of any point total, which it never reads), rather than an
empty list. -/
theorem C7_zero_activity :
    (∀ (partidas : List MatchRow) (events : List EventRow) (cutoff_ms : Nat) (s : String),
        (∀ me ∈ events, ¬ (me.summoner_name = s ∧
            ∃ m ∈ partidas, m.match_id = me.match_id ∧ cutoff_ms ≤ m.game_creation)) →
        calculate_dynamic_points partidas events cutoff_ms s = 0) ∧
    score_events [] = 0 ∧
    generate_base_plan 0 = FULL_WORKOUT.map (fun p => { nombre := p.1, reps := 0 }) := by
  refine ⟨?_, by decide, by decide⟩
  intro partidas events cutoff_ms s h
  have hnil : eventos_del_dia partidas events cutoff_ms s = [] := by
    unfold eventos_del_dia
    rw [filter_eventos_nil partidas cutoff_ms s events h]
    rfl
  unfold calculate_dynamic_points
  rw [hnil]
  rfl

/-- C7 witness: the zero score statement at a concrete state holding a
prior day event of the player and an in-window event of another player,
with no event of the player inside the window. -/
theorem C7_witness :
    (∀ me ∈ ([⟨"m0", Evento.derrota, "s"⟩,
        ⟨"m1", Evento.victoria, "other"⟩] : List EventRow),
      ¬ (me.summoner_name = "s" ∧
          ∃ m ∈ ([⟨"m0", 420, 900, 800, "s"⟩,
              ⟨"m1", 420, 1100, 1050, "other"⟩] : List MatchRow),
            m.match_id = me.match_id ∧ 1000 ≤ m.game_creation)) ∧
    calculate_dynamic_points
      [⟨"m0", 420, 900, 800, "s"⟩, ⟨"m1", 420, 1100, 1050, "other"⟩]
      [⟨"m0", Evento.derrota, "s"⟩, ⟨"m1", Evento.victoria, "other"⟩] 1000 "s" = 0 :=
  ⟨by decide,
    C7_zero_activity.1
      [⟨"m0", 420, 900, 800, "s"⟩, ⟨"m1", 420, 1100, 1050, "other"⟩]
      [⟨"m0", Evento.derrota, "s"⟩, ⟨"m1", Evento.victoria, "other"⟩] 1000 "s" (by decide)⟩

/-- C8: a banked day is frozen: update_streak on a timestamp whose day row
is already banked leaves the streak_bank table unchanged, and a second
mark_streak_banked on any date leaves the table exactly as after the first
one. -/
theorem C8_bank_frozen :
    (∀ (bank : List BankRow) (ts : Nat) (w : Bool) (row : BankRow),
        bank_lookup bank (dayOfMs ts) = some row → row.has_banked = true →
        update_streak bank ts w = bank) ∧
    (∀ (bank : List BankRow) (d : Nat),
        mark_streak_banked (mark_streak_banked bank d) d = mark_streak_banked bank d) := by
  constructor
  · intro bank ts w row hl hb
    unfold update_streak
    simp [hl, hb]
  · intro bank d
    unfold mark_streak_banked
    rw [List.map_map]
    apply List.map_congr_left
    intro r _
    by_cases h : r.date = d
    · simp [Function.comp, h]
    · simp [Function.comp, h]

/-- C8 witness: the frozen day statement at a concrete banked row and the
bank idempotence at a concrete unbanked row. -/
theorem C8_witness :
    bank_lookup [⟨0, 3, true⟩] (dayOfMs 5) = some ⟨0, 3, true⟩ ∧
    update_streak [⟨0, 3, true⟩] 5 true = [⟨0, 3, true⟩] ∧
    mark_streak_banked (mark_streak_banked [⟨1, 2, false⟩] 1) 1
      = mark_streak_banked [⟨1, 2, false⟩] 1 :=
  ⟨by decide,
    C8_bank_frozen.1 [⟨0, 3, true⟩] 5 true ⟨0, 3, true⟩ (by decide) (by decide),
    C8_bank_frozen.2 [⟨1, 2, false⟩] 1⟩

lemma up_upsert_cons_ne (a : UserPointsRow) (rest : List UserPointsRow)
    (row : UserPointsRow) (h : ¬ a.summoner_name = row.summoner_name) :
    up_upsert (a :: rest) row = a :: up_upsert rest row := by
  unfold up_upsert
  by_cases hr : rest.any (fun r => r.summoner_name == row.summoner_name) = true
  · simp [List.any_cons, h, hr]
  · simp [List.any_cons, h, hr]

lemma up_lookup_upsert : ∀ (up : List UserPointsRow) (row : UserPointsRow),
    up_lookup (up_upsert up row) row.summoner_name = some row := by
  intro up row
  induction up with
  | nil => simp [up_upsert, up_lookup]
  | cons a rest ih =>
    by_cases h : a.summoner_name = row.summoner_name
    · have hany : (a :: rest).any (fun r => r.summoner_name == row.summoner_name) = true := by
        simp [List.any_cons, h]
      unfold up_upsert
      rw [if_pos hany]
      simp only [List.map_cons]
      rw [if_pos (by simp [h])]
      unfold up_lookup
      rw [List.find?_cons_of_pos _ (by simp)]
    · rw [up_upsert_cons_ne a rest row h]
      unfold up_lookup at ih ⊢
      rw [List.find?_cons_of_neg _ (by simp [h])]
      exact ih

lemma map_upsert_mem_eq (row : UserPointsRow) : ∀ (l : List UserPointsRow) (r : UserPointsRow),
    r ∈ l.map (fun x => if x.summoner_name == row.summoner_name then row else x) →
    r.summoner_name = row.summoner_name → r = row := by
  intro l
  induction l with
  | nil => intro r hr _; simp at hr
  | cons a rest ih =>
    intro r hr hname
    simp only [List.map_cons, List.mem_cons] at hr
    rcases hr with hr | hr
    · by_cases h : a.summoner_name = row.summoner_name
      · simpa [h] using hr
      · rw [if_neg (by simp [h])] at hr
        subst hr
        exact absurd hname h
    · exact ih r hr hname

lemma up_upsert_rows (up : List UserPointsRow) (row r : UserPointsRow)
    (hr : r ∈ up_upsert up row) (hname : r.summoner_name = row.summoner_name) : r = row := by
  unfold up_upsert at hr
  by_cases hany : up.any (fun x => x.summoner_name == row.summoner_name) = true
  · rw [if_pos hany] at hr
    exact map_upsert_mem_eq row up r hr hname
  · rw [if_neg hany] at hr
    rcases List.mem_append.mp hr with h | h
    · exact absurd (List.any_eq_true.mpr ⟨r, h, by simp [hname]⟩) hany
    · simpa using h

lemma up_upsert_self (up : List UserPointsRow) (row : UserPointsRow)
    (hmem : row ∈ up) (hall : ∀ r ∈ up, r.summoner_name = row.summoner_name → r = row) :
    up_upsert up row = up := by
  unfold up_upsert
  rw [if_pos (List.any_eq_true.mpr ⟨row, hmem, by simp⟩)]
  rw [show up.map (fun x => if x.summoner_name == row.summoner_name then row else x)
      = up.map id from
    List.map_congr_left (by
      intro x hx
      by_cases hxn : x.summoner_name = row.summoner_name
      · rw [if_pos (by simp [hxn])]
        exact (hall x hx hxn).symm
      · rw [if_neg (by simp [hxn])]
        rfl)]
  exact List.map_id up

/-- C9: the endpoint adds the freshly computed daily points into the stored
running total only on the first call of a calendar day: that call returns
the previous total plus the daily points, and any later call the same day
leaves the user_points table and the returned total exactly as the first
call left them. -/
theorem C9_daily_accumulation_once (up : List UserPointsRow) (s : String) (today : Nat)
    (ts1 ts2 : Nat × Nat) (p1 p2 : Nat)
    (hfirst : lastDateOf up s ≠ some today) (hts : ts1.1 = today) :
    (acumular_puntos up s today ts1 p1).2 = totalOf up s + p1 ∧
    acumular_puntos (acumular_puntos up s today ts1 p1).1 s today ts2 p2
      = ((acumular_puntos up s today ts1 p1).1, (acumular_puntos up s today ts1 p1).2) := by
  have hstep1 : acumular_puntos up s today ts1 p1
      = (up_upsert up ⟨s, totalOf up s + p1, some ts1⟩, totalOf up s + p1) := by
    unfold acumular_puntos totalOf
    cases hup : up_lookup up s with
    | none => simp [hup]
    | some r =>
      have hr : r.last_accumulated_date.map Prod.fst ≠ some today := by
        unfold lastDateOf at hfirst
        rw [hup] at hfirst
        exact hfirst
      simp [hup, hr]
  have hlk : up_lookup (up_upsert up ⟨s, totalOf up s + p1, some ts1⟩) s
      = some ⟨s, totalOf up s + p1, some ts1⟩ :=
    up_lookup_upsert up ⟨s, totalOf up s + p1, some ts1⟩
  have hmem : (⟨s, totalOf up s + p1, some ts1⟩ : UserPointsRow)
      ∈ up_upsert up ⟨s, totalOf up s + p1, some ts1⟩ := by
    apply List.mem_of_find?_eq_some
    exact hlk
  have hupfix : up_upsert (up_upsert up ⟨s, totalOf up s + p1, some ts1⟩)
      ⟨s, totalOf up s + p1, some ts1⟩ = up_upsert up ⟨s, totalOf up s + p1, some ts1⟩ :=
    up_upsert_self _ _ hmem (fun r hr hn => up_upsert_rows up _ r hr hn)
  have hstep2 : acumular_puntos (up_upsert up ⟨s, totalOf up s + p1, some ts1⟩) s today ts2 p2
      = (up_upsert up ⟨s, totalOf up s + p1, some ts1⟩, totalOf up s + p1) := by
    unfold acumular_puntos
    rw [hlk]
    dsimp only
    rw [if_neg (show ¬ Option.map Prod.fst (some ts1) ≠ some today by simp [hts])]
    dsimp only
    rw [hupfix]
  refine ⟨by rw [hstep1], ?_⟩
  rw [hstep1]
  dsimp only
  rw [hstep2]

/-- C9 witness: first and second same day calls at a concrete fresh
summoner. -/
theorem C9_witness :
    lastDateOf [] "bob" ≠ some 3 ∧ ((3, 10) : Nat × Nat).1 = 3 ∧
    ((acumular_puntos [] "bob" 3 (3, 10) 7).2 = totalOf [] "bob" + 7 ∧
      acumular_puntos (acumular_puntos [] "bob" 3 (3, 10) 7).1 "bob" 3 (3, 20) 9
        = ((acumular_puntos [] "bob" 3 (3, 10) 7).1, (acumular_puntos [] "bob" 3 (3, 10) 7).2)) :=
  ⟨by decide, rfl, C9_daily_accumulation_once [] "bob" 3 (3, 10) (3, 20) 7 9 (by decide) rfl⟩

lemma procesar_match_fields (payloads : String → MatchInfo) (puuid summoner mid : String)
    (rec : MatchRec) (h : procesar_match payloads puuid summoner mid = some rec) :
    rec.match_id = mid ∧ rec.summoner_name = summoner := by
  unfold procesar_match process_match at h
  split at h
  · simp at h
  · split at h
    · simp at h
    · split at h
      · simp at h
      · rw [Option.some.injEq] at h
        subst h
        exact ⟨rfl, rfl⟩

/-- C6: a candidate whose filtered outcome ended before the start of the
day window is skipped by the ingestion loop: the loop continues on the
remaining candidates from an unchanged state, so nothing is persisted for
it and no counter advances (stated for outcomes whose creation instant does
not exceed their end instant, which is what makes the source check on the
creation instant imply the claimed check on the end instant). -/
theorem C6_pre_window_skip (payloads : String → MatchInfo) (puuid summoner : String)
    (cutoff_ms : Nat) (mid : String) (rest : List String) (st : LoopState) (rec : MatchRec)
    (hp : procesar_match payloads puuid summoner mid = some rec)
    (hend : rec.end_timestamp < cutoff_ms)
    (hce : rec.raw_creation ≤ rec.end_timestamp) :
    ingest_loop payloads puuid summoner cutoff_ms (mid :: rest) st
      = ingest_loop payloads puuid summoner cutoff_ms rest st := by
  have hraw : rec.raw_creation < cutoff_ms := lt_of_le_of_lt hce hend
  simp only [ingest_loop]
  by_cases hsk :
      st.partidas.any (fun r => r.match_id == mid && r.summoner_name == summoner) = true
  · simp [hsk]
  · simp [hsk, hp, hraw]

/-- C6 witness: the skip at a concrete payload created and ended before the
window. -/
theorem C6_witness :
    procesar_match (fun _ => earlyInfo) "p" "s" "m1" = some earlyRec ∧
    earlyRec.end_timestamp < 1000 ∧
    earlyRec.raw_creation ≤ earlyRec.end_timestamp ∧
    ingest_loop (fun _ => earlyInfo) "p" "s" 1000 ["m1"] ⟨[], [], [], 0, 0⟩
      = ingest_loop (fun _ => earlyInfo) "p" "s" 1000 [] ⟨[], [], [], 0, 0⟩ :=
  ⟨rfl, by decide, by decide,
    C6_pre_window_skip (fun _ => earlyInfo) "p" "s" 1000 "m1" [] ⟨[], [], [], 0, 0⟩
      earlyRec rfl (by decide) (by decide)⟩

/-- C10: the matches table key is match_id alone while the skip check is
per (match_id, summoner_name): when another summoner has already recorded a
candidate match and the requesting summoner has not, the loop passes the
skip check, reaches the insert, and the whole endpoint call fails with the
uniqueness violation instead of skipping the candidate. -/
theorem C10_pk_collision (payloads : String → MatchInfo) (puuidB summonerB : String)
    (cutoff_ms today : Nat) (now : Nat × Nat) (db : DBState) (mid : String)
    (rest : List String) (rowA : MatchRow) (rec : MatchRec)
    (hA : rowA ∈ db.partidas) (hAid : rowA.match_id = mid)
    (hskip : ∀ r ∈ db.partidas, ¬ (r.match_id = mid ∧ r.summoner_name = summonerB))
    (hp : procesar_match payloads puuidB summonerB mid = some rec)
    (hwin : cutoff_ms ≤ rec.raw_creation) :
    procesar_partidas payloads (mid :: rest) puuidB summonerB cutoff_ms today now db
      = Except.error (IngestError.uniqueViolation mid) := by
  obtain ⟨hrid, -⟩ := procesar_match_fields payloads puuidB summonerB mid rec hp
  have hsk : db.partidas.any
      (fun r => r.match_id == mid && r.summoner_name == summonerB) = false := by
    rw [← Bool.not_eq_true, List.any_eq_true]
    rintro ⟨r, hr, hpred⟩
    simp only [Bool.and_eq_true, beq_iff_eq] at hpred
    exact hskip r hr hpred
  have hins : insert_match db.partidas (row_of_rec rec)
      = Except.error (IngestError.uniqueViolation mid) := by
    unfold insert_match
    rw [if_pos (List.any_eq_true.mpr ⟨rowA, hA, by simp [row_of_rec, hAid, hrid]⟩)]
    rw [show (row_of_rec rec).match_id = mid from hrid]
  have hloop : ingest_loop payloads puuidB summonerB cutoff_ms (mid :: rest)
      { partidas := db.partidas, match_events := db.match_events,
        streak_bank := db.streak_bank,
        defeats := count_events db.partidas db.match_events cutoff_ms summonerB Evento.derrota,
        victories :=
          count_events db.partidas db.match_events cutoff_ms summonerB Evento.victoria }
      = Except.error (IngestError.uniqueViolation mid) := by
    simp only [ingest_loop, hsk, Bool.false_eq_true, if_false, hp, hins]
    rw [if_neg (by omega : ¬ rec.raw_creation < cutoff_ms)]
  simp only [procesar_partidas, hloop]

/-- C10 witness: summoner B ingesting match m1 that summoner A already
recorded fails with the uniqueness violation. -/
theorem C10_witness :
    procesar_partidas cexPayloads ["m1"] "p" "B" 1000 0 (0, 0) c10db
      = Except.error (IngestError.uniqueViolation "m1") :=
  C10_pk_collision cexPayloads "p" "B" 1000 0 (0, 0) c10db "m1" []
    { match_id := "m1", queue_id := 420, end_timestamp := 1100,
      game_creation := 1050, summoner_name := "A" }
    { match_id := "m1", queue_id := 420, end_timestamp := 1100,
      raw_creation := 1050, win := false, summoner_name := "B" }
    (by decide) (by decide) (by decide) rfl (by decide)

lemma ingest_loop_mono (payloads : String → MatchInfo) (puuid summoner : String)
    (cutoff_ms : Nat) :
    ∀ (mids : List String) (st st' : LoopState),
      ingest_loop payloads puuid summoner cutoff_ms mids st = Except.ok st' →
      ∀ r ∈ st.partidas, r ∈ st'.partidas := by
  intro mids
  induction mids with
  | nil =>
    intro st st' h r hr
    simp only [ingest_loop, Except.ok.injEq] at h
    subst h
    exact hr
  | cons mid rest ih =>
    intro st st' h r hr
    simp only [ingest_loop] at h
    split at h
    · exact ih st st' h r hr
    · split at h
      · exact ih st st' h r hr
      · rename_i rec heq
        split at h
        · exact ih st st' h r hr
        · split at h
          · exact absurd h (by simp)
          · rename_i ms hins
            have hms : ms = st.partidas ++ [row_of_rec rec] := by
              unfold insert_match at hins
              split at hins
              · exact absurd hins (by simp)
              · rw [Except.ok.injEq] at hins
                exact hins.symm
            split at h
            · split at h
              · rw [Except.ok.injEq] at h
                subst h
                show r ∈ ms
                rw [hms]
                exact List.mem_append_left _ hr
              · exact ih _ st' h r
                  (show r ∈ ms by rw [hms]; exact List.mem_append_left _ hr)
            · exact ih _ st' h r
                (show r ∈ ms by rw [hms]; exact List.mem_append_left _ hr)

lemma ingest_loop_coverage (payloads : String → MatchInfo) (puuid summoner : String)
    (cutoff_ms : Nat) :
    ∀ (mids : List String) (st st' : LoopState),
      ingest_loop payloads puuid summoner cutoff_ms mids st = Except.ok st' →
      st'.defeats < DAILY_DEF_LIMIT →
      ∀ mid ∈ mids, skip_reason payloads puuid summoner cutoff_ms st'.partidas mid := by
  intro mids
  induction mids with
  | nil =>
    intro st st' _ _ mid hmid
    simp at hmid
  | cons mid0 rest ih =>
    intro st st' h hq mid hmid
    rw [List.mem_cons] at hmid
    simp only [ingest_loop] at h
    split at h
    · rename_i hsk
      rcases hmid with rfl | hmid
      · rw [List.any_eq_true] at hsk
        obtain ⟨r, hr, hpred⟩ := hsk
        simp only [Bool.and_eq_true, beq_iff_eq] at hpred
        exact Or.inl ⟨r, ingest_loop_mono payloads puuid summoner cutoff_ms rest st st' h r hr,
          hpred.1, hpred.2⟩
      · exact ih st st' h hq mid hmid
    · split at h
      · rename_i heq
        rcases hmid with rfl | hmid
        · exact Or.inr (Or.inl heq)
        · exact ih st st' h hq mid hmid
      · rename_i rec heq
        split at h
        · rename_i hraw
          rcases hmid with rfl | hmid
          · exact Or.inr (Or.inr ⟨rec, heq, hraw⟩)
          · exact ih st st' h hq mid hmid
        · rename_i hraw
          split at h
          · exact absurd h (by simp)
          · rename_i ms hins
            have hms : ms = st.partidas ++ [row_of_rec rec] := by
              unfold insert_match at hins
              split at hins
              · exact absurd hins (by simp)
              · rw [Except.ok.injEq] at hins
                exact hins.symm
            obtain ⟨hrid, hrsum⟩ := procesar_match_fields payloads puuid summoner mid0 rec heq
            have hrowmem : row_of_rec rec ∈ ms := by
              rw [hms]
              exact List.mem_append_right _ (List.mem_singleton.mpr rfl)
            split at h
            · split at h
              · rw [Except.ok.injEq] at h
                subst h
                simp only at hq
                omega
              · have hmem' : row_of_rec rec ∈ st'.partidas :=
                  ingest_loop_mono payloads puuid summoner cutoff_ms rest _ st' h _ hrowmem
                rcases hmid with rfl | hmid
                · exact Or.inl ⟨row_of_rec rec, hmem', hrid, hrsum⟩
                · exact ih _ st' h hq mid hmid
            · have hmem' : row_of_rec rec ∈ st'.partidas :=
                ingest_loop_mono payloads puuid summoner cutoff_ms rest _ st' h _ hrowmem
              rcases hmid with rfl | hmid
              · exact Or.inl ⟨row_of_rec rec, hmem', hrid, hrsum⟩
              · exact ih _ st' h hq mid hmid

lemma ingest_loop_skips (payloads : String → MatchInfo) (puuid summoner : String)
    (cutoff_ms : Nat) :
    ∀ (mids : List String) (st : LoopState),
      (∀ mid ∈ mids, skip_reason payloads puuid summoner cutoff_ms st.partidas mid) →
      ingest_loop payloads puuid summoner cutoff_ms mids st = Except.ok st := by
  intro mids
  induction mids with
  | nil => intro st _; rfl
  | cons mid0 rest ih =>
    intro st hall
    have hrest : ∀ mid ∈ rest, skip_reason payloads puuid summoner cutoff_ms st.partidas mid :=
      fun mid hm => hall mid (List.mem_cons_of_mem _ hm)
    simp only [ingest_loop]
    by_cases hsk :
        st.partidas.any (fun r => r.match_id == mid0 && r.summoner_name == summoner) = true
    · simp only [hsk, if_true]
      exact ih st hrest
    · rcases hall mid0 (List.mem_cons_self _ _) with hmem | hnone | ⟨rec, hrec, hraw⟩
      · exfalso
        apply hsk
        obtain ⟨r, hr, h1, h2⟩ := hmem
        exact List.any_eq_true.mpr ⟨r, hr, by simp [h1, h2]⟩
      · simp only [hsk, Bool.false_eq_true, if_false, hnone]
        exact ih st hrest
      · simp only [hsk, Bool.false_eq_true, if_false, hrec, hraw, if_true]
        exact ih st hrest

lemma event_counted_append_fresh (partidas : List MatchRow) (events : List EventRow)
    (row : MatchRow) (cutoff_ms : Nat) (s : String) (ev : Evento)
    (hfresh : ∀ m ∈ partidas, m.match_id ≠ row.match_id)
    (hwf : events_have_match partidas events) :
    ∀ e ∈ events, event_counted (partidas ++ [row]) cutoff_ms s ev e
      = event_counted partidas cutoff_ms s ev e := by
  intro e he
  unfold event_counted
  have hrowe : (row.match_id == e.match_id) = false := by
    obtain ⟨m, hm, hmid⟩ := hwf e he
    have : row.match_id ≠ e.match_id := fun hc => hfresh m hm (by rw [hmid, hc])
    simp [this]
  rw [List.any_append]
  simp [hrowe]

lemma count_events_append_fresh (partidas : List MatchRow) (events : List EventRow)
    (row : MatchRow) (erow : EventRow) (cutoff_ms : Nat) (s : String) (ev : Evento)
    (hfresh : ∀ m ∈ partidas, m.match_id ≠ row.match_id)
    (hwf : events_have_match partidas events)
    (hrow : erow.match_id = row.match_id)
    (hwin : cutoff_ms ≤ row.game_creation) :
    count_events (partidas ++ [row]) (events ++ [erow]) cutoff_ms s ev
      = count_events partidas events cutoff_ms s ev
        + (if erow.event = ev ∧ erow.summoner_name = s then 1 else 0) := by
  unfold count_events
  rw [List.filter_append, List.length_append]
  congr 1
  · rw [List.filter_congr
      (event_counted_append_fresh partidas events row cutoff_ms s ev hfresh hwf)]
  · have hcnt : event_counted (partidas ++ [row]) cutoff_ms s ev erow
        = (erow.event == ev && erow.summoner_name == s) := by
      unfold event_counted
      rw [List.any_append]
      have : (row.match_id == erow.match_id && decide (cutoff_ms ≤ row.game_creation)) = true := by
        simp [hrow, hwin]
      simp [this]
    by_cases hc : erow.event = ev ∧ erow.summoner_name = s
    · rw [if_pos hc]
      have : event_counted (partidas ++ [row]) cutoff_ms s ev erow = true := by
        rw [hcnt]
        simp [hc.1, hc.2]
      simp [List.filter, this]
    · rw [if_neg hc]
      have : event_counted (partidas ++ [row]) cutoff_ms s ev erow = false := by
        rw [hcnt]
        rcases not_and_or.mp hc with h | h <;> simp [h]
      simp [List.filter, this]

lemma ingest_loop_counts (payloads : String → MatchInfo) (puuid summoner : String)
    (cutoff_ms : Nat) :
    ∀ (mids : List String) (st st' : LoopState),
      ingest_loop payloads puuid summoner cutoff_ms mids st = Except.ok st' →
      events_have_match st.partidas st.match_events →
      count_events st.partidas st.match_events cutoff_ms summoner Evento.derrota = st.defeats →
      count_events st.partidas st.match_events cutoff_ms summoner Evento.victoria = st.victories →
      events_have_match st'.partidas st'.match_events ∧
      count_events st'.partidas st'.match_events cutoff_ms summoner Evento.derrota = st'.defeats ∧
      count_events st'.partidas st'.match_events cutoff_ms summoner Evento.victoria
        = st'.victories := by
  intro mids
  induction mids with
  | nil =>
    intro st st' h hwf hcd hcv
    simp only [ingest_loop, Except.ok.injEq] at h
    subst h
    exact ⟨hwf, hcd, hcv⟩
  | cons mid0 rest ih =>
    intro st st' h hwf hcd hcv
    simp only [ingest_loop] at h
    split at h
    · exact ih st st' h hwf hcd hcv
    · split at h
      · exact ih st st' h hwf hcd hcv
      · rename_i rec heq
        split at h
        · exact ih st st' h hwf hcd hcv
        · rename_i hraw
          split at h
          · exact absurd h (by simp)
          · rename_i ms hins
            obtain ⟨hrid, hrsum⟩ :=
              procesar_match_fields payloads puuid summoner mid0 rec heq
            have hfresh : ∀ m ∈ st.partidas, m.match_id ≠ (row_of_rec rec).match_id := by
              unfold insert_match at hins
              split at hins
              · exact absurd hins (by simp)
              · rename_i hany
                intro m hm hc
                exact hany (List.any_eq_true.mpr ⟨m, hm, by simp [hc]⟩)
            have hms : ms = st.partidas ++ [row_of_rec rec] := by
              unfold insert_match at hins
              split at hins
              · exact absurd hins (by simp)
              · rw [Except.ok.injEq] at hins
                exact hins.symm
            have hevfresh : insert_event st.match_events
                { match_id := rec.match_id, event := evento_of_rec rec,
                  summoner_name := rec.summoner_name }
                = st.match_events ++
                  [{ match_id := rec.match_id, event := evento_of_rec rec,
                     summoner_name := rec.summoner_name }] := by
              unfold insert_event
              rw [if_neg ?hne]
              case hne =>
                intro hc
                obtain ⟨r, hr, hre⟩ := List.any_eq_true.mp hc
                rw [beq_iff_eq] at hre
                subst hre
                obtain ⟨m, hm, hmid⟩ := hwf _ hr
                exact hfresh m hm hmid
            have hwf' : events_have_match ms (st.match_events ++
                [{ match_id := rec.match_id, event := evento_of_rec rec,
                   summoner_name := rec.summoner_name }]) := by
              rw [hms]
              intro e he
              rcases List.mem_append.mp he with he | he
              · obtain ⟨m, hm, hmid⟩ := hwf e he
                exact ⟨m, List.mem_append_left _ hm, hmid⟩
              · rw [List.mem_singleton] at he
                subst he
                exact ⟨row_of_rec rec,
                  List.mem_append_right _ (List.mem_singleton.mpr rfl), rfl⟩
            have hwin' : cutoff_ms ≤ (row_of_rec rec).game_creation := by
              show cutoff_ms ≤ rec.raw_creation
              omega
            have hcd' := count_events_append_fresh st.partidas st.match_events
              (row_of_rec rec)
              { match_id := rec.match_id, event := evento_of_rec rec,
                summoner_name := rec.summoner_name }
              cutoff_ms summoner Evento.derrota hfresh hwf rfl hwin'
            have hcv' := count_events_append_fresh st.partidas st.match_events
              (row_of_rec rec)
              { match_id := rec.match_id, event := evento_of_rec rec,
                summoner_name := rec.summoner_name }
              cutoff_ms summoner Evento.victoria hfresh hwf rfl hwin'
            dsimp only at hcd' hcv'
            split at h
            · rename_i hevt
              rw [beq_iff_eq] at hevt
              rw [hevt] at hcd' hcv'
              rw [hrsum] at hcd' hcv'
              rw [if_pos ⟨rfl, rfl⟩] at hcd'
              rw [if_neg (by intro hc; exact Evento.noConfusion hc.1)] at hcv'
              split at h
              · rw [Except.ok.injEq] at h
                subst h
                refine ⟨hevfresh ▸ hwf', ?_, ?_⟩
                · show count_events ms (insert_event st.match_events _) cutoff_ms summoner
                    Evento.derrota = st.defeats + 1
                  rw [hevfresh, hms, hevt, hrsum] at *
                  rw [hcd', hcd]
                · show count_events ms (insert_event st.match_events _) cutoff_ms summoner
                    Evento.victoria = st.victories
                  rw [hevfresh, hms, hevt, hrsum] at *
                  rw [hcv', hcv]
                  omega
              · apply ih _ st' h
                · exact hevfresh ▸ hwf'
                · show count_events ms (insert_event st.match_events _) cutoff_ms summoner
                    Evento.derrota = st.defeats + 1
                  rw [hevfresh, hms, hevt, hrsum] at *
                  rw [hcd', hcd]
                · show count_events ms (insert_event st.match_events _) cutoff_ms summoner
                    Evento.victoria = st.victories
                  rw [hevfresh, hms, hevt, hrsum] at *
                  rw [hcv', hcv]
                  omega
            · rename_i hevt
              have hevt' : evento_of_rec rec = Evento.victoria := by
                cases hv : evento_of_rec rec
                · rfl
                · rw [hv] at hevt
                  simp at hevt
              rw [hevt'] at hcd' hcv'
              rw [hrsum] at hcd' hcv'
              rw [if_pos ⟨rfl, rfl⟩] at hcv'
              rw [if_neg (by intro hc; exact Evento.noConfusion hc.1)] at hcd'
              apply ih _ st' h
              · exact hevfresh ▸ hwf'
              · show count_events ms (insert_event st.match_events _) cutoff_ms summoner
                  Evento.derrota = st.defeats
                rw [hevfresh, hms, hevt', hrsum] at *
                rw [hcd', hcd]
                omega
              · show count_events ms (insert_event st.match_events _) cutoff_ms summoner
                  Evento.victoria = st.victories + 1
                rw [hevfresh, hms, hevt', hrsum] at *
                rw [hcv', hcv]

/-- C4 amended: re-running the endpoint with identical candidates and
payloads is a no-op on the matches and match_events tables and returns the
same loss and win counters, provided the first run finished below the daily
defeat limit.  (A first run halted by the quota is not idempotent: the
loop only checks the quota after inserting a new defeat, so a second run
ingests one further candidate; see the counterexample.) -/
theorem C4_second_run_noop (payloads : String → MatchInfo) (recent : List String)
    (puuid summoner : String) (cutoff_ms today1 today2 : Nat) (now1 now2 : Nat × Nat)
    (db0 db1 : DBState) (r1 : Respuesta)
    (hwf : events_have_match db0.partidas db0.match_events)
    (h1 : procesar_partidas payloads recent puuid summoner cutoff_ms today1 now1 db0
      = Except.ok (db1, r1))
    (hq : r1.derrotas < DAILY_DEF_LIMIT) :
    ∃ db2 r2,
      procesar_partidas payloads recent puuid summoner cutoff_ms today2 now2 db1
        = Except.ok (db2, r2) ∧
      db2.partidas = db1.partidas ∧ db2.match_events = db1.match_events ∧
      db2.streak_bank = db1.streak_bank ∧
      r2.derrotas = r1.derrotas ∧ r2.victorias = r1.victorias := by
  simp only [procesar_partidas] at h1
  split at h1
  · exact absurd h1 (by simp)
  · rename_i st1 hloop
    rw [Except.ok.injEq, Prod.mk.injEq] at h1
    obtain ⟨hdb, hr⟩ := h1
    subst hdb
    subst hr
    have hq' : st1.defeats < DAILY_DEF_LIMIT := hq
    obtain ⟨hwf1, hcd1, hcv1⟩ := ingest_loop_counts payloads puuid summoner cutoff_ms
      recent _ st1 hloop hwf rfl rfl
    have hcov := ingest_loop_coverage payloads puuid summoner cutoff_ms recent _ st1
      hloop hq'
    simp only [procesar_partidas]
    rw [hcd1, hcv1]
    have hskip2 : ingest_loop payloads puuid summoner cutoff_ms recent
        { partidas := st1.partidas, match_events := st1.match_events,
          streak_bank := st1.streak_bank, defeats := st1.defeats,
          victories := st1.victories }
        = Except.ok
        { partidas := st1.partidas, match_events := st1.match_events,
          streak_bank := st1.streak_bank, defeats := st1.defeats,
          victories := st1.victories } :=
      ingest_loop_skips payloads puuid summoner cutoff_ms recent _ (fun mid hm => hcov mid hm)
    rw [hskip2]
    exact ⟨_, _, rfl, rfl, rfl, rfl, rfl, rfl⟩

/-- C4 counterexample: with six identical defeat candidates and a fresh
database, the first call ingests m1 to m5 and reports 5 losses; the second
identical call is not a no-op: it ingests m6 as well and reports 6 losses,
because the quota is only checked after a new defeat is inserted. -/
theorem C4_counterexample :
    (respOf cexRun1).map Respuesta.derrotas = some 5 ∧
    matchIdsOf cexRun1 = some ["m1", "m2", "m3", "m4", "m5"] ∧
    (respOf cexRun2).map Respuesta.derrotas = some 6 ∧
    matchIdsOf cexRun2 = some ["m1", "m2", "m3", "m4", "m5", "m6"] := by decide

/-- C4 witness: the amended statement at a concrete one candidate run that
stays below the quota. -/
theorem C4_witness :
    ∃ db2 r2,
      procesar_partidas cexPayloads ["m1"] "p" "s" 1000 0 (0, 0) c4wDb1
        = Except.ok (db2, r2) ∧
      db2.partidas = c4wDb1.partidas ∧ db2.match_events = c4wDb1.match_events ∧
      db2.streak_bank = c4wDb1.streak_bank ∧
      r2.derrotas = c4wR1.derrotas ∧ r2.victorias = c4wR1.victorias :=
  C4_second_run_noop cexPayloads ["m1"] "p" "s" 1000 0 0 (0, 0) (0, 0) DBState.empty
    c4wDb1 c4wR1 (fun e he => absurd he (List.not_mem_nil e)) rfl (by decide)

lemma ingest_quota_losses (payloads : String → MatchInfo) (puuid summoner : String)
    (cutoff_ms : Nat) :
    ∀ (mids : List String) (st : LoopState),
      mids.Nodup →
      (∀ mid ∈ mids, ∃ rec, procesar_match payloads puuid summoner mid = some rec ∧
          rec.win = false ∧ cutoff_ms ≤ rec.raw_creation) →
      (∀ mid ∈ mids, ∀ r ∈ st.partidas, r.match_id ≠ mid) →
      st.defeats < DAILY_DEF_LIMIT →
      DAILY_DEF_LIMIT ≤ st.defeats + mids.length →
      ∃ st', ingest_loop payloads puuid summoner cutoff_ms mids st = Except.ok st' ∧
        st'.defeats = DAILY_DEF_LIMIT ∧
        st'.partidas.map (fun r => r.match_id)
          = st.partidas.map (fun r => r.match_id)
            ++ mids.take (DAILY_DEF_LIMIT - st.defeats) := by
  intro mids
  induction mids with
  | nil =>
    intro st _ _ _ hlt hge
    simp only [List.length_nil] at hge
    omega
  | cons mid rest ih =>
    intro st hnd hloss hfresh hlt hge
    simp only [List.length_cons] at hge
    rw [List.nodup_cons] at hnd
    obtain ⟨rec, hrec, hwinF, hraw⟩ := hloss mid (List.mem_cons_self _ _)
    obtain ⟨hrid, hrsum⟩ := procesar_match_fields payloads puuid summoner mid rec hrec
    have hsk : st.partidas.any
        (fun r => r.match_id == mid && r.summoner_name == summoner) = false := by
      rw [← Bool.not_eq_true, List.any_eq_true]
      rintro ⟨r, hr, hpred⟩
      simp only [Bool.and_eq_true, beq_iff_eq] at hpred
      exact hfresh mid (List.mem_cons_self _ _) r hr hpred.1
    have hnotin : st.partidas.any
        (fun r => r.match_id == (row_of_rec rec).match_id) = false := by
      rw [← Bool.not_eq_true, List.any_eq_true]
      rintro ⟨r, hr, hpred⟩
      rw [beq_iff_eq] at hpred
      exact hfresh mid (List.mem_cons_self _ _) r hr (by rw [hpred]; exact hrid)
    have hins : insert_match st.partidas (row_of_rec rec)
        = Except.ok (st.partidas ++ [row_of_rec rec]) := by
      unfold insert_match
      rw [if_neg (by rw [hnotin]; exact Bool.false_ne_true)]
    have hevt : evento_of_rec rec = Evento.derrota := by
      unfold evento_of_rec
      rw [hwinF]
      rfl
    simp only [ingest_loop, hsk, Bool.false_eq_true, if_false, hrec, hins]
    rw [if_neg (show ¬ rec.raw_creation < cutoff_ms by omega)]
    rw [if_pos (show (evento_of_rec rec == Evento.derrota) = true by rw [hevt]; rfl)]
    by_cases hlim : DAILY_DEF_LIMIT ≤ st.defeats + 1
    · rw [if_pos hlim]
      refine ⟨_, rfl, ?_, ?_⟩
      · show st.defeats + 1 = DAILY_DEF_LIMIT
        omega
      · show (st.partidas ++ [row_of_rec rec]).map (fun r => r.match_id)
          = st.partidas.map (fun r => r.match_id)
            ++ (mid :: rest).take (DAILY_DEF_LIMIT - st.defeats)
        rw [List.map_append, show DAILY_DEF_LIMIT - st.defeats = 1 by omega]
        simp [row_of_rec, hrid]
    · rw [if_neg hlim]
      obtain ⟨st', hloop', hdef', hmap'⟩ := ih
        { partidas := st.partidas ++ [row_of_rec rec],
          match_events := insert_event st.match_events
            { match_id := rec.match_id, event := evento_of_rec rec,
              summoner_name := rec.summoner_name },
          streak_bank := update_streak st.streak_bank rec.raw_creation
            (evento_of_rec rec == Evento.victoria),
          defeats := st.defeats + 1, victories := st.victories }
        hnd.2
        (fun mid' hm => hloss mid' (List.mem_cons_of_mem _ hm))
        (by
          intro mid' hm r hr
          rcases List.mem_append.mp hr with hold | hnew
          · exact hfresh mid' (List.mem_cons_of_mem _ hm) r hold
          · rw [List.mem_singleton] at hnew
            subst hnew
            show rec.match_id ≠ mid'
            rw [hrid]
            intro hc
            rw [hc] at hnd
            exact hnd.1 hm)
        (show st.defeats + 1 < DAILY_DEF_LIMIT by omega)
        (show DAILY_DEF_LIMIT ≤ st.defeats + 1 + rest.length by omega)
      refine ⟨st', hloop', hdef', ?_⟩
      rw [hmap', List.map_append]
      rw [show DAILY_DEF_LIMIT - st.defeats = (DAILY_DEF_LIMIT - (st.defeats + 1)) + 1 by omega]
      rw [List.take_succ_cons]
      simp [row_of_rec, hrid, List.append_assoc]

/-- C5: on a fresh database, six distinct candidates that are all in-window
defeats make the endpoint ingest exactly the first five, stop before the
sixth (which is persisted nowhere), and report a final loss count of 5, the
configured daily quota. -/
theorem C5_quota_boundary (payloads : String → MatchInfo) (puuid summoner : String)
    (cutoff_ms today : Nat) (now : Nat × Nat) (m1 m2 m3 m4 m5 m6 : String)
    (hnd : List.Nodup [m1, m2, m3, m4, m5, m6])
    (hloss : ∀ mid ∈ [m1, m2, m3, m4, m5, m6], ∃ rec,
        procesar_match payloads puuid summoner mid = some rec ∧
        rec.win = false ∧ cutoff_ms ≤ rec.raw_creation) :
    ∃ db r, procesar_partidas payloads [m1, m2, m3, m4, m5, m6] puuid summoner cutoff_ms
        today now DBState.empty = Except.ok (db, r) ∧
      r.derrotas = 5 ∧
      db.partidas.map (fun x => x.match_id) = [m1, m2, m3, m4, m5] ∧
      ∀ row ∈ db.partidas, row.match_id ≠ m6 := by
  obtain ⟨st', hloop, hdef, hmap⟩ := ingest_quota_losses payloads puuid summoner cutoff_ms
    [m1, m2, m3, m4, m5, m6]
    { partidas := DBState.empty.partidas, match_events := DBState.empty.match_events,
      streak_bank := DBState.empty.streak_bank,
      defeats := count_events DBState.empty.partidas DBState.empty.match_events cutoff_ms
        summoner Evento.derrota,
      victories := count_events DBState.empty.partidas DBState.empty.match_events cutoff_ms
        summoner Evento.victoria }
    hnd hloss
    (by intro mid hm r hr; simp [DBState.empty] at hr)
    (by show (0 : Nat) < DAILY_DEF_LIMIT; decide)
    (by show DAILY_DEF_LIMIT ≤ (0 : Nat) + 6; decide)
  have h3 : st'.partidas.map (fun r => r.match_id) = [m1, m2, m3, m4, m5] := by
    rw [hmap]
    show [] ++ List.take (DAILY_DEF_LIMIT - 0) [m1, m2, m3, m4, m5, m6] = _
    rw [show DAILY_DEF_LIMIT - 0 = 5 from rfl]
    rfl
  have hrun : procesar_partidas payloads [m1, m2, m3, m4, m5, m6] puuid summoner cutoff_ms
      today now DBState.empty
      = Except.ok
        ({ partidas := st'.partidas, match_events := st'.match_events,
           streak_bank := st'.streak_bank,
           user_points := (acumular_puntos DBState.empty.user_points summoner today now
             (calculate_dynamic_points st'.partidas st'.match_events cutoff_ms summoner)).1 },
         { derrotas := st'.defeats, victorias := st'.victories,
           puntos_diarios :=
             calculate_dynamic_points st'.partidas st'.match_events cutoff_ms summoner,
           puntos_totales := (acumular_puntos DBState.empty.user_points summoner today now
             (calculate_dynamic_points st'.partidas st'.match_events cutoff_ms summoner)).2,
           plan_base := generate_base_plan st'.defeats }) := by
    simp only [procesar_partidas]
    rw [hloop]
  refine ⟨_, _, hrun, ?_, ?_, ?_⟩
  · show st'.defeats = 5
    rw [hdef]
    rfl
  · exact h3
  · intro row hrow
    have hmm : row.match_id ∈ [m1, m2, m3, m4, m5] := by
      rw [← h3]
      exact List.mem_map_of_mem _ hrow
    simp only [List.nodup_cons, List.mem_cons, List.not_mem_nil, not_or, or_false,
      List.mem_singleton, List.nodup_nil, and_true] at hnd
    simp only [List.mem_cons, List.not_mem_nil, or_false, List.mem_singleton] at hmm
    rcases hmm with h | h | h | h | h <;> rw [h] <;> tauto

/-- C5 witness: the quota boundary at six concrete distinct defeat
candidates. -/
theorem C5_witness :
    ∃ db r, procesar_partidas cexPayloads ["m1", "m2", "m3", "m4", "m5", "m6"] "p" "s" 1000
        0 (0, 0) DBState.empty = Except.ok (db, r) ∧
      r.derrotas = 5 ∧
      db.partidas.map (fun x => x.match_id) = ["m1", "m2", "m3", "m4", "m5"] ∧
      ∀ row ∈ db.partidas, row.match_id ≠ "m6" :=
  C5_quota_boundary cexPayloads "p" "s" 1000 0 (0, 0) "m1" "m2" "m3" "m4" "m5" "m6"
    (by decide)
    (fun mid _ =>
      ⟨{ match_id := mid, queue_id := 420, end_timestamp := 1100,
         raw_creation := 1050, win := false, summoner_name := "s" },
       rfl, rfl, show (1000 : Nat) ≤ 1050 by decide⟩)
